import Mathlib

/-!
Shallow embedding of `metargs` (src/metargs/__init__.py): a declarative
option-resolution layer that merges a structured config file with
command-line arguments.  Python objects are embedded as follows:

* Python values that can live in a resolved option slot (strings read
  from the config file, coerced ints, Python `None`) are the inductive
  `Val`; lists of tokens produced by splitting a config string are kept
  separate in `Resolved`.
* A `type=` keyword argument (an arbitrary Python callable) is embedded
  as the inductive `Coercion`: either `int`-like parsing (a coercion that
  can fail, mirroring `ValueError` from `int()`), or a non-callable
  object (triggering the "type is not callable" check in `_get_value`).
* Exceptions are `Except Err`; the distinct `Err` constructors record
  which `raise` site of the source produced the error (in the source,
  `invalidChoice`, `countMismatch`, `atLeastOne` and `typeNotCallable`
  are all `ConfigArgumentError` with the given message).
* The `SafeConfigParser` collaborator is a section/key-to-string mapping
  `ConfigMap`, built by `config_read` with the ConfigParser last-read-wins
  merge semantics.
-/

namespace Metargs

/-- Scalar Python values that appear in resolved option slots. -/
inductive Val where
  | str : String → Val
  | int : Int → Val
  | pynone : Val
deriving DecidableEq

/-- Embedding of the `type=` keyword argument of an `Option`: a Python
callable used to coerce a raw config string, or a non-callable object
(which makes `_get_value` raise "type is not callable"). -/
inductive Coercion where
  | toInt : Coercion
  | notCallable : Coercion
deriving DecidableEq

/-- Embedding of the `nargs=` keyword argument values that
`Option.from_config` dispatches on: `"+"`, `"*"`, or an integer. -/
inductive Nargs where
  | plus : Nargs
  | star : Nargs
  | count : Nat → Nargs
deriving DecidableEq

/-- Result of resolving one Option from the config file: a scalar value,
a list of decoded tokens (for a non-None `nargs`), or the deferred
`MissingConfigArgumentError` marker carrying the config paths of the option
(in the source the exception object itself is returned, not raised). -/
inductive Resolved where
  | val : Val → Resolved
  | vals : List Val → Resolved
  | missing : List (List String) → Resolved
deriving DecidableEq

/-- Errors raised by the source.  Constructors tag the raise site; in the
source the first four are `ConfigArgumentError` and `missingConfig` is
`MissingConfigArgumentError`, each with the recorded message.  `usage`
stands for usage errors of the argparse collaborator (SystemExit), and
`unpack` for the ValueError a malformed config path would raise at the
tuple unpacking in `_read_config_paths`. -/
inductive Err where
  | invalidChoice : String → Err
  | countMismatch : String → Err
  | atLeastOne : String → Err
  | typeNotCallable : String → Err
  | decodeFailure : String → Err
  | missingConfig : String → Err
  | usage : String → Err
  | unpack : String → Err
deriving DecidableEq

/-- Section/key to string mapping built by the `SafeConfigParser`
collaborator.  The entry closest to the head is the most recently
written one; lookups scan from the head, so later writes win. -/
abbrev ConfigMap := List ((String × String) × String)

/-- Embedding of `ConfigParser.has_option`. -/
def ConfigMap.hasOption (cfg : ConfigMap) (sect key : String) : Bool :=
  cfg.any (fun e => decide (e.1 = (sect, key)))

/-- Embedding of `ConfigParser.get` (only called after `has_option`, so
the default for a missing key is never observed). -/
def ConfigMap.get (cfg : ConfigMap) (sect key : String) : String :=
  ((cfg.find? (fun e => decide (e.1 = (sect, key)))).map (fun e => e.2)).getD ""

/-- Optional lookup in a `ConfigMap`, used to state merge properties. -/
def ConfigMap.lookup (cfg : ConfigMap) (sect key : String) : Option String :=
  (cfg.find? (fun e => decide (e.1 = (sect, key)))).map (fun e => e.2)

/-- Embedding of `ConfigParser.read`: merge the entries of a file (in file
order) into the mapping; an entry written later overwrites an earlier
one for the same section/key (last read wins). -/
def config_read (cfg : ConfigMap) (entries : List ((String × String) × String)) : ConfigMap :=
  entries.foldl (fun c e => e :: c) cfg

/-- File system collaborator: maps a path to the entries of the config
file stored there; a missing file is the empty list (ConfigParser.read
silently ignores unreadable paths). -/
abbrev Files := String → List ((String × String) × String)

/-!
Python string primitives, implemented over `String.data` by structural
recursion so that they compute by kernel reduction (`String.splitOn`,
`String.trim`, `String.startsWith` and friends are byte-position based
and do not).
-/

/-- Python `s.startswith(pre)`. -/
def py_startswith (s pre : String) : Bool :=
  pre.data.isPrefixOf s.data

/-- Python `s.strip()`: drop leading and trailing whitespace. -/
def py_strip (s : String) : String :=
  String.mk (((s.data.dropWhile Char.isWhitespace).reverse.dropWhile Char.isWhitespace).reverse)

/-- Value of a non-empty all-digit character list, else `none`. -/
def py_digits (ds : List Char) : Option Nat :=
  if ds = [] then none
  else if ds.all Char.isDigit then
    some (ds.foldl (fun n c => n * 10 + (c.toNat - 48)) 0)
  else none

/-- Embedding of Python `int(s)`: strip whitespace, optional sign, then
at least one digit; `none` stands for the `ValueError` raise. -/
def py_int (s : String) : Option Int :=
  match (py_strip s).data with
  | '-' :: ds => (py_digits ds).map (fun n => -(n : Int))
  | '+' :: ds => (py_digits ds).map (fun n => (n : Int))
  | ds => (py_digits ds).map (fun n => (n : Int))

/-- Worker for `py_split`: cut the character list at each leftmost
occurrence of `sep`.  The fuel is the character count; every step
consumes at least one character, so the zero-fuel branch is unreachable
from the wrapper. -/
def py_split_go (sep : List Char) : Nat → List Char → List (List Char)
  | _, [] => [[]]
  | 0, cs => [cs]
  | fuel + 1, c :: cs =>
      if sep ≠ [] ∧ List.isPrefixOf sep (c :: cs) then
        [] :: py_split_go sep fuel ((c :: cs).drop sep.length)
      else
        match py_split_go sep fuel cs with
        | [] => [[c]]
        | t :: ts => (c :: t) :: ts

/-- Embedding of Python `s.split(sep)` for a non-empty separator; in
particular `"".split(sep) == [""]`.  (Python raises on an empty
separator; the model returns the whole string, a case no declared
option exercises since `split_char` defaults to `,`.) -/
def py_split (s sep : String) : List String :=
  (py_split_go sep.data s.data.length s.data).map String.mk

/-- Python `s.replace(a, b)` for single characters (as argparse uses it
for `-` to `_` in dest derivation). -/
def py_replace_char (s : String) (a b : Char) : String :=
  String.mk (s.data.map (fun c => if c = a then b else c))

/-- Drop the first `n` characters (Python `s[n:]`). -/
def py_drop (s : String) (n : Nat) : String :=
  String.mk (s.data.drop n)

/-- Embedding of `separate_names`: split the declared names into config
paths (contain a colon, split on it), positional argument names, and
optional (flag) names, preserving order within each class. -/
def separate_names (names : List String) : List (List String) × List String × List String :=
  names.foldl
    (fun acc name =>
      if py_startswith name "-" then (acc.1, acc.2.1, acc.2.2 ++ [name])
      else if name.data.contains ':' then (acc.1 ++ [py_split name ":"], acc.2.1, acc.2.2)
      else (acc.1, acc.2.1 ++ [name], acc.2.2))
    ([], [], [])

/-- Embedding of the `Option` class: one field per attribute set in
`Option.__init__`.  Python `None` is `none` (or `Val.pynone` for the
`const`/`default` slots, which hold arbitrary values). -/
structure MOption where
  action : String
  nargs : Option Nargs
  const : Val
  default : Val
  type : Option Coercion
  choices : Option (List Val)
  required : Option Bool
  help : Option String
  metavar : Option String
  dest : Option String
  split_char : String
  config_paths : List (List String)
  args : List String
  options : List String
deriving DecidableEq

/-- Keyword arguments accepted by `Option.__init__`; `none` means the
keyword was not supplied (Python `kwargs.get`). -/
structure OptionKwargs where
  action : Option String
  nargs : Option Nargs
  const : Option Val
  default : Option Val
  type : Option Coercion
  choices : Option (List Val)
  required : Option Bool
  help : Option String
  metavar : Option String
  dest : Option String
  split_char : Option String
deriving DecidableEq

/-- Embedding of `Option.__init__`: read each keyword with the class
defaults (`action="store"`, `split_char=","`, all others None) and
classify the names with `separate_names`. -/
def MOption.build (names : List String) (kw : OptionKwargs) : MOption :=
  let sep := separate_names names
  ⟨kw.action.getD "store", kw.nargs, (kw.const).getD Val.pynone, (kw.default).getD Val.pynone,
   kw.type, kw.choices, kw.required, kw.help, kw.metavar, kw.dest,
   (kw.split_char).getD ",", sep.1, sep.2.1, sep.2.2⟩

/-- Embedding of `Option.__eq__`: field-by-field comparison. -/
def MOption.eq (self other : MOption) : Bool :=
  decide (other.action = self.action) &&
  decide (other.nargs = self.nargs) &&
  decide (other.const = self.const) &&
  decide (other.default = self.default) &&
  decide (other.type = self.type) &&
  decide (other.choices = self.choices) &&
  decide (other.required = self.required) &&
  decide (other.help = self.help) &&
  decide (other.metavar = self.metavar) &&
  decide (other.dest = self.dest) &&
  decide (other.split_char = self.split_char) &&
  decide (other.config_paths = self.config_paths) &&
  decide (other.args = self.args) &&
  decide (other.options = self.options)

/-- Python truthiness of the `required` attribute (`None` and `False`
are falsy). -/
def MOption.required_truthy (o : MOption) : Bool :=
  match o.required with
  | some true => true
  | _ => false

/-- Names of the option as formatted in the "type is not callable"
message of `_get_value`. -/
def MOption.formatted_names (o : MOption) : String :=
  String.intercalate " " (o.args ++ o.options ++ o.config_paths.map (String.intercalate ":"))

/-- Embedding of `Option._get_value`: identity if no `type` was given,
`ConfigArgumentError` if the supplied type is not callable, otherwise
apply the coercion (whose failure is the uncaught `ValueError` that
`int()` raises on a bad literal). -/
def MOption.get_value (o : MOption) (value : String) : Except Err Val :=
  match o.type with
  | none => Except.ok (Val.str value)
  | some Coercion.notCallable =>
      Except.error (Err.typeNotCallable
        ("type is not callable for Option(" ++ o.formatted_names ++ ")"))
  | some Coercion.toInt =>
      match py_int value with
      | some n => Except.ok (Val.int n)
      | none => Except.error (Err.decodeFailure ("invalid literal for int(): " ++ value))

/-- Python `str()` of a value, for the `%s` in error messages. -/
def Val.show : Val → String
  | Val.str s => s
  | Val.int n => toString n
  | Val.pynone => "None"

/-- Python `repr()` of a value, for the choices list in the invalid
choice message (strings are quoted). -/
def Val.reprs : Val → String
  | Val.str s => "\x27" ++ s ++ "\x27"
  | Val.int n => toString n
  | Val.pynone => "None"

/-- Embedding of `Option._check_value`: if a `choices` list was given,
the value must be a member. -/
def MOption.check_value (o : MOption) (value : Val) : Except Err Unit :=
  match o.choices with
  | none => Except.ok ()
  | some cs =>
      if value ∈ cs then Except.ok ()
      else
        Except.error (Err.invalidChoice ("invalid choice: " ++ Val.show value ++
          " (choose from " ++ String.intercalate ", " (cs.map Val.reprs) ++ ")"))

/-- Embedding of `Option._read_config_paths`: scan `config_paths` in
order and return the first `(value, section, name)` whose section/key is
present, or `none` if no path is present.  A config path that is not a
two-element list makes the `for section, name in ...` unpacking raise. -/
def read_config_paths : List (List String) → ConfigMap → Except Err (Option (String × String × String))
  | [], _ => Except.ok none
  | p :: rest, cfg =>
      match p with
      | [sect, key] =>
          if cfg.hasOption sect key then Except.ok (some (cfg.get sect key, sect, key))
          else read_config_paths rest cfg
      | _ => Except.error (Err.unpack "config path does not unpack into (section, name)")

/-- Message of the `nargs="+"` zero-token error in `from_config`. -/
def plus_msg (sect key : String) : String :=
  "Require at least one value in [" ++ sect ++ "] " ++ key ++ ", because nargs=\x27+\x27"

/-- Message of the fixed-count mismatch error in `from_config`. -/
def count_msg (n : Nat) (sect key : String) : String :=
  "Require exactly " ++ toString n ++ " values in [" ++ sect ++ "] " ++ key ++
    ", because nargs=" ++ toString n

/-- Embedding of the list comprehension
`[self._get_value(v.strip()) for v in val.split(self.split_char)]`:
strip then decode each token left to right, propagating the first
failure. -/
def MOption.decode_all (o : MOption) : List String → Except Err (List Val)
  | [] => Except.ok []
  | t :: ts =>
      match o.get_value (py_strip t) with
      | Except.error e => Except.error e
      | Except.ok v =>
          match o.decode_all ts with
          | Except.error e => Except.error e
          | Except.ok vs => Except.ok (v :: vs)

/-- Embedding of the `for v in value: self._check_value(v)` loop of
`from_config`. -/
def MOption.check_all (o : MOption) : List Val → Except Err Unit
  | [] => Except.ok ()
  | v :: vs =>
      match o.check_value v with
      | Except.error e => Except.error e
      | Except.ok _ => o.check_all vs

/-- Run the choices check over the decoded tokens and return them; this
is the tail shared by the three `nargs` branches of `from_config`. -/
def MOption.check_then (o : MOption) (value : List Val) : Except Err Resolved :=
  match o.check_all value with
  | Except.error e => Except.error e
  | Except.ok _ => Except.ok (Resolved.vals value)

/-- Processing `from_config` applies to the raw string found at the
first present config path (the part of the source after the
`if val is None` early return): split/decode/count-check/choices-check
for a non-None `nargs`, decode-and-check for a scalar. -/
def MOption.resolve_value (o : MOption) (val sect key : String) : Except Err Resolved :=
  match o.nargs with
  | none =>
      match o.get_value val with
      | Except.error e => Except.error e
      | Except.ok value =>
          match o.check_value value with
          | Except.error e => Except.error e
          | Except.ok _ => Except.ok (Resolved.val value)
  | some ng =>
      match o.decode_all (py_split val o.split_char) with
      | Except.error e => Except.error e
      | Except.ok value =>
          match ng with
          | Nargs.plus =>
              if value.length = 0 then Except.error (Err.atLeastOne (plus_msg sect key))
              else o.check_then value
          | Nargs.star => o.check_then value
          | Nargs.count n =>
              if value.length ≠ n then Except.error (Err.countMismatch (count_msg n sect key))
              else o.check_then value

/-- Message of `MissingConfigArgumentError.__init__` for an option with
the given config paths. -/
def missing_message (paths : List (List String)) : String :=
  "No configuration value found for required Option(" ++
    String.intercalate ", " (paths.map (String.intercalate ":")) ++ ")"

/-- Embedding of `Option.from_config`: read the first available config
path; if none is present, return (not raise) the deferred
`MissingConfigArgumentError` marker when required, else the declared
default; if present, decode/validate per `resolve_value`. -/
def MOption.from_config (o : MOption) (cfg : ConfigMap) : Except Err Resolved :=
  match read_config_paths o.config_paths cfg with
  | Except.error e => Except.error e
  | Except.ok none =>
      if o.required_truthy then Except.ok (Resolved.missing o.config_paths)
      else Except.ok (Resolved.val o.default)
  | Except.ok (some (val, sect, key)) => o.resolve_value val sect key

/-!
The argparse collaborator.  The spec treats the flag parser as an
external primitive (declare an argument with a keyword bundle, then
parse tokens into a namespace, defaults used only when a flag is absent,
required optionals enforced, unknown tokens returned by the known-args
variant).  The model below embeds the slice of that contract the source
exercises: `store` flag arguments, scalar or multi-token, matched by
exact token, with `-`/`--` dest derivation.
-/

/-- One registered argument of the flag parser: the positional names and
the keyword bundle that `Option.addToParser` forwards (a field is
`none` exactly when `add_if_not_none` skipped it). -/
structure ArgAction where
  names : List String
  action : String
  nargs : Option Nargs
  const : Option Val
  default : Option Resolved
  type : Option Coercion
  choices : Option (List Val)
  required : Option Bool
  help : Option String
  metavar : Option String
  dest : Option String
deriving DecidableEq

/-- Namespace of parsed values: attribute name to value, in insertion
order. -/
abbrev NSpace := List (String × Resolved)

/-- Lookup of a namespace attribute. -/
def NSpace.get (ns : NSpace) (key : String) : Option Resolved :=
  (ns.find? (fun e => decide (e.1 = key))).map (fun e => e.2)

/-- Embedding of `setattr`: overwrite the attribute in place if present,
else append it. -/
def NSpace.set (ns : NSpace) (key : String) (v : Resolved) : NSpace :=
  if ns.any (fun e => decide (e.1 = key)) then
    ns.map (fun e => if e.1 = key then (key, v) else e)
  else ns ++ [(key, v)]

/-- Dest derivation of the argparse collaborator: an explicit `dest`
wins; otherwise the first long option name (stripped of `--`), else the
first short option name (stripped of `-`), else the first positional
name, with `-` replaced by `_`. -/
def ArgAction.destOf (a : ArgAction) : String :=
  match a.dest with
  | some d => d
  | none =>
      match a.names.find? (fun n => py_startswith n "--") with
      | some n => py_replace_char (py_drop n 2) '-' '_'
      | none =>
          match a.names.find? (fun n => py_startswith n "-") with
          | some n => py_replace_char (py_drop n 1) '-' '_'
          | none => py_replace_char (a.names.headD "") '-' '_'

/-- The argument registered by `addToParser` for an option with a
command-line surface: positional plus flag names, and the keyword
bundle built by the `add_if_not_none` calls, with `default` overridden
by the resolved config value. -/
def MOption.argAction (o : MOption) (fromCfg : Resolved) : ArgAction :=
  ⟨o.args ++ o.options, o.action, o.nargs,
    (if o.const = Val.pynone then none else some o.const),
    (if fromCfg = Resolved.val Val.pynone then none else some fromCfg),
    o.type, o.choices, o.required, o.help, o.metavar, o.dest⟩

/-- Embedding of `Option.addToParser`: a config-only option (no
positional and no flag names) writes the resolved config value into the
namespace under each config path joined with `_` and leaves the parser
untouched; otherwise an argument is registered whose keyword bundle
forwards every non-None field, with `default` set to the resolved
config value. -/
def MOption.addToParser (o : MOption) (fromCfg : Resolved)
    (argparser : List ArgAction) (namespace_ : Option NSpace) :
    List ArgAction × Option NSpace :=
  if o.args = [] ∧ o.options = [] then
    (argparser,
      match namespace_ with
      | none => none
      | some ns =>
          some (o.config_paths.foldl
            (fun n path => n.set (String.intercalate "_" path) fromCfg) ns))
  else
    (argparser ++ [o.argAction fromCfg], namespace_)

/-- Type coercion applied by the flag parser to a command-line token. -/
def ArgAction.applyType (a : ArgAction) (s : String) : Except Err Val :=
  match a.type with
  | none => Except.ok (Val.str s)
  | some Coercion.toInt =>
      match py_int s with
      | some n => Except.ok (Val.int n)
      | none => Except.error (Err.usage ("argument: invalid int value: " ++ s))
  | some Coercion.notCallable => Except.error (Err.usage "argument: type is not callable")

/-- Default seeding of the flag parser: before parsing, every action
whose dest is not already an attribute of the namespace gets its
declared default (Python `None`, hence `Val.pynone`, when no default
was registered). -/
def seed_defaults (actions : List ArgAction) (ns : NSpace) : NSpace :=
  actions.foldl
    (fun n a =>
      if n.any (fun e => decide (e.1 = a.destOf)) then n
      else n ++ [(a.destOf, a.default.getD (Resolved.val Val.pynone))])
    ns

/-- Token scan of the flag parser.  A token that equals a registered
flag name consumes its value token(s) (one for a scalar, the following
non-dash tokens for `+`/`*`, the next `n` for a count) and sets the
dest of the action; any other token is returned as a leftover.  The fuel is
the initial token count: each step consumes at least one token, so the
fuel-exhausted branch is unreachable at the call below. -/
def consume (actions : List ArgAction) :
    Nat → List String → NSpace → List String → List String →
    Except Err (NSpace × List String × List String)
  | _, [], ns, rest, seen => Except.ok (ns, rest, seen)
  | 0, toks, ns, rest, seen => Except.ok (ns, rest ++ toks, seen)
  | fuel + 1, t :: ts, ns, rest, seen =>
      match actions.find? (fun a => py_startswith t "-" && a.names.contains t) with
      | none => consume actions fuel ts ns (rest ++ [t]) seen
      | some a =>
          match a.nargs with
          | none =>
              match ts with
              | [] => Except.error (Err.usage ("argument " ++ t ++ ": expected one argument"))
              | v :: ts2 =>
                  match a.applyType v with
                  | Except.error e => Except.error e
                  | Except.ok w =>
                      consume actions fuel ts2 (ns.set a.destOf (Resolved.val w))
                        rest (seen ++ [a.destOf])
          | some ng =>
              let raw : List String := match ng with
                | Nargs.plus => ts.takeWhile (fun s => !(py_startswith s "-"))
                | Nargs.star => ts.takeWhile (fun s => !(py_startswith s "-"))
                | Nargs.count n => ts.take n
              match raw.mapM a.applyType with
              | Except.error e => Except.error e
              | Except.ok ws =>
                  consume actions fuel (ts.drop raw.length) (ns.set a.destOf (Resolved.vals ws))
                    rest (seen ++ [a.destOf])

/-- Known-args parse of the flag parser collaborator: seed defaults,
scan the tokens, then enforce `required=True` optionals (argparse
errors when a required optional never appeared on the command line,
regardless of its default). -/
def parse_known (actions : List ArgAction) (tokens : List String) (ns0 : NSpace) :
    Except Err (NSpace × List String) :=
  match consume actions tokens.length tokens (seed_defaults actions ns0) [] [] with
  | Except.error e => Except.error e
  | Except.ok (ns, rest, seen) =>
      match actions.find? (fun a => decide (a.required = some true) && !(seen.contains a.destOf)) with
      | some a =>
          Except.error (Err.usage ("argument " ++ String.intercalate "/" a.names ++ " is required"))
      | none => Except.ok (ns, rest)

/-- Embedding of the `ConfigBackedArgumentParser` state: the config-flag
settings, the declared options (insertion order), and the extra config
paths.  `parser_args`/`parser_kwargs` only feed cosmetic
`ArgumentParser` settings and are omitted. -/
structure ConfigBackedArgumentParser where
  def_cfg_loc : Option String
  config_short_flag : String
  config_long_flag : String
  config_help : String
  config_metavar : String
  options : List MOption
  additional_configs : List String
deriving DecidableEq

namespace ConfigBackedArgumentParser

/-- Embedding of `_add_config_arg`: the argument registered for the
config-file flag itself (dest `config`, default `def_cfg_loc`). -/
def config_action (p : ConfigBackedArgumentParser) : ArgAction :=
  ⟨[p.config_short_flag, p.config_long_flag], "store", none, none,
    some (Resolved.val (match p.def_cfg_loc with
      | some s => Val.str s
      | none => Val.pynone)),
    none, none, none, some p.config_help, some p.config_metavar, some "config"⟩

/-- The namespace value seeded for the config flag when it is absent
from the command line. -/
def cfg_default (p : ConfigBackedArgumentParser) : Resolved :=
  Resolved.val (match p.def_cfg_loc with
    | some s => Val.str s
    | none => Val.pynone)

/-- Merged config mapping built inside `_read_config_args`: a throwaway
parser with only the config flag extracts the config path from the
tokens (falling back to `def_cfg_loc`); that file is read first, then
every path of `additional_configs` is read into the same
`SafeConfigParser`, later reads overwriting earlier entries per
section/key. -/
def merged_config (p : ConfigBackedArgumentParser) (files : Files) (args : List String) :
    Except Err ConfigMap :=
  match parse_known [p.config_action] args [] with
  | Except.error e => Except.error e
  | Except.ok (ns, _) =>
      let cfgPath : Option String :=
        match ns.get "config" with
        | some (Resolved.val (Val.str s)) => some s
        | _ => none
      let cfg0 : ConfigMap :=
        match cfgPath with
        | some path => config_read [] (files path)
        | none => []
      Except.ok (p.additional_configs.foldl (fun c pth => config_read c (files pth)) cfg0)

/-- Loop of `_read_config_args` that calls `from_config` on every
declared option against the merged mapping, in registration order. -/
def read_config_vals (cfg : ConfigMap) : List MOption → Except Err (List (MOption × Resolved))
  | [] => Except.ok []
  | o :: os =>
      match o.from_config cfg with
      | Except.error e => Except.error e
      | Except.ok v =>
          match read_config_vals cfg os with
          | Except.error e => Except.error e
          | Except.ok vs => Except.ok ((o, v) :: vs)

/-- Embedding of `_read_config_args`: merged mapping, then per-option
resolution. -/
def readConfigArgs (p : ConfigBackedArgumentParser) (files : Files) (args : List String) :
    Except Err (List (MOption × Resolved)) :=
  match p.merged_config files args with
  | Except.error e => Except.error e
  | Except.ok cfg => read_config_vals cfg p.options

/-- Embedding of the private setup step of the resolver (the
underscore-prefixed setup method in the source): add the config flag to the real
parser, create a fresh namespace, and register every declared option
with its resolved config value as default (`_add_options`). -/
def setupParser (p : ConfigBackedArgumentParser) (files : Files) (args : List String) :
    Except Err (List ArgAction × NSpace) :=
  match p.readConfigArgs files args with
  | Except.error e => Except.error e
  | Except.ok vals =>
      let st := vals.foldl
        (fun (acc : List ArgAction × Option NSpace) ov =>
          ov.1.addToParser ov.2 acc.1 acc.2)
        ([p.config_action], some [])
      Except.ok (st.1, st.2.getD [])

/-- Embedding of `_check_required_config`: scan the namespace
attributes and raise the first deferred `MissingConfigArgumentError`
marker still present. -/
def check_required_config : NSpace → Except Err Unit
  | [] => Except.ok ()
  | (_, Resolved.missing ps) :: _ => Except.error (Err.missingConfig (missing_message ps))
  | _ :: rest => check_required_config rest

/-- Embedding of `ConfigBackedArgumentParser.parse_known_args`. -/
def parse_known_args (p : ConfigBackedArgumentParser) (files : Files) (args : List String) :
    Except Err (NSpace × List String) :=
  match p.setupParser files args with
  | Except.error e => Except.error e
  | Except.ok (actions, ns0) =>
      match parse_known actions args ns0 with
      | Except.error e => Except.error e
      | Except.ok (ns, rest) =>
          match check_required_config ns with
          | Except.error e => Except.error e
          | Except.ok _ => Except.ok (ns, rest)

/-- Embedding of `ConfigBackedArgumentParser.parse_args`: like
`parse_known_args` but the strict parse errors out on unrecognized
tokens (before the required-config reconciliation). -/
def parse_args (p : ConfigBackedArgumentParser) (files : Files) (args : List String) :
    Except Err NSpace :=
  match p.setupParser files args with
  | Except.error e => Except.error e
  | Except.ok (actions, ns0) =>
      match parse_known actions args ns0 with
      | Except.error e => Except.error e
      | Except.ok (ns, rest) =>
          if rest = [] then
            match check_required_config ns with
            | Except.error e => Except.error e
            | Except.ok _ => Except.ok ns
          else Except.error (Err.usage ("unrecognized arguments: " ++ String.intercalate " " rest))

/-- Embedding of `ConfigBackedArgumentParser.bootstrap_parse`: a
known-args parse with auto-help disabled, discarding the leftover
tokens. -/
def bootstrap_parse (p : ConfigBackedArgumentParser) (files : Files) (args : List String) :
    Except Err NSpace :=
  match p.parse_known_args files args with
  | Except.error e => Except.error e
  | Except.ok (ns, _) => Except.ok ns

end ConfigBackedArgumentParser

/-- Membership of an option in the declared list, via `Option.__eq__`
(Python `option not in self.options`). -/
def opt_mem (o : MOption) (opts : List MOption) : Bool :=
  opts.any (fun e => o.eq e)

/-- Embedding of `append_option`: add the option unless an equal one is
already declared. -/
def append_option (opts : List MOption) (o : MOption) : List MOption :=
  if opt_mem o opts then opts else opts ++ [o]

/-- Embedding of `extend_options`: append each option in turn, skipping
any already present under equality. -/
def extend_options (opts : List MOption) (new : List MOption) : List MOption :=
  new.foldl append_option opts

/-!
Concrete fixtures used by witnesses and counterexamples.
-/

/-- A `required=True` option `Option("db:host", "--host")`. -/
def optReq : MOption :=
  ⟨"store", none, Val.pynone, Val.pynone, none, none, some true, none, none, none,
   ",", [["db", "host"]], [], ["--host"]⟩

/-- A config-only `required=True` option `Option("db:host", required=True)`. -/
def optCfgOnly : MOption :=
  ⟨"store", none, Val.pynone, Val.pynone, none, none, some true, none, none, none,
   ",", [["db", "host"]], [], []⟩

/-- An `Option("db:host", nargs="+")`. -/
def optPlus : MOption :=
  ⟨"store", some Nargs.plus, Val.pynone, Val.pynone, none, none, none, none, none, none,
   ",", [["db", "host"]], [], []⟩

/-- An `Option("db:host", nargs="*", "--host")`. -/
def optStar : MOption :=
  ⟨"store", some Nargs.star, Val.pynone, Val.pynone, none, none, none, none, none, none,
   ",", [["db", "host"]], [], ["--host"]⟩

/-- An `Option("db:host", nargs=2)`. -/
def optCnt2 : MOption :=
  ⟨"store", some (Nargs.count 2), Val.pynone, Val.pynone, none, none, none, none, none, none,
   ",", [["db", "host"]], [], []⟩

/-- An `Option("db:host", nargs=2, type=int, choices=[1])`: both a
coercion and a validator, for the check-ordering claim. -/
def optCnt2Int : MOption :=
  ⟨"store", some (Nargs.count 2), Val.pynone, Val.pynone, some Coercion.toInt,
   some [Val.int 1], none, none, none, none, ",", [["db", "host"]], [], []⟩

/-- An option with two config paths `Option("db:host", "fallback:host")`. -/
def optTwoPaths : MOption :=
  ⟨"store", none, Val.pynone, Val.pynone, none, none, none, none, none, none,
   ",", [["db", "host"], ["fallback", "host"]], [], []⟩

/-- A config mapping with `[db] host` set. -/
def cfgDb (v : String) : ConfigMap := [(("db", "host"), v)]

/-- The empty file system (every path reads as a missing file). -/
def noFiles : Files := fun _ => []

/-- A resolver declaring only `optReq`. -/
def parserReq : ConfigBackedArgumentParser :=
  ⟨none, "-c", "--config", "Path to the config file", "CFG", [optReq], []⟩

/-- A resolver declaring only `optCfgOnly`. -/
def parserCfgOnly : ConfigBackedArgumentParser :=
  ⟨none, "-c", "--config", "Path to the config file", "CFG", [optCfgOnly], []⟩

/-- File system for the merge-precedence claim: a primary config and two
extra configs that all define `[db] host`, and one key only the primary
defines. -/
def filesMerge : Files := fun path =>
  if path = "a.cfg" then [(("db", "host"), "p"), (("only", "a"), "1")]
  else if path = "b.cfg" then [(("db", "host"), "x1")]
  else if path = "c.cfg" then [(("db", "host"), "x2")]
  else []

/-- A resolver with primary config `a.cfg` and extras `b.cfg`, `c.cfg`. -/
def parserMerge : ConfigBackedArgumentParser :=
  ⟨some "a.cfg", "-c", "--config", "Path to the config file", "CFG", [], ["b.cfg", "c.cfg"]⟩

/-- Keyword bundle with every keyword absent. -/
def kwNone : OptionKwargs :=
  ⟨none, none, none, none, none, none, none, none, none, none, none⟩

/-- Value stored at a section/key by the last file (in read order) that
defines it: files are read in list order and later entries overwrite
earlier ones, so the effective entry is the last one in the
concatenation. -/
def last_entry (entries : List ((String × String) × String)) (s k : String) : Option String :=
  (entries.reverse.find? (fun e => decide (e.1 = (s, k)))).map (fun e => e.2)

/-!
Helper lemmas about the embedded operations.
-/

/-- Scanning a list of two-element config paths none of which is present
in the mapping yields no hit. -/
lemma read_config_paths_none (paths : List (List String)) (cfg : ConfigMap)
    (hwf : ∀ q ∈ paths, ∃ a b, q = [a, b])
    (habs : ∀ a b, [a, b] ∈ paths → cfg.hasOption a b = false) :
    read_config_paths paths cfg = Except.ok none := by
  induction paths with
  | nil => rfl
  | cons q rest ih =>
      obtain ⟨a, b, rfl⟩ := hwf q (List.mem_cons_self q rest)
      have h1 : cfg.hasOption a b = false := habs a b (List.mem_cons_self _ _)
      have h2 := ih (fun q hq => hwf q (List.mem_cons_of_mem _ hq))
        (fun a b hab => habs a b (List.mem_cons_of_mem _ hab))
      simp [read_config_paths, h1, h2]

/-- Scanning stops at the first present config path; later paths are
never consulted. -/
lemma read_config_paths_first (ps1 ps2 : List (List String)) (s k : String) (cfg : ConfigMap)
    (hwf : ∀ q ∈ ps1, ∃ a b, q = [a, b])
    (habs : ∀ a b, [a, b] ∈ ps1 → cfg.hasOption a b = false)
    (hpres : cfg.hasOption s k = true) :
    read_config_paths (ps1 ++ [s, k] :: ps2) cfg = Except.ok (some (cfg.get s k, s, k)) := by
  induction ps1 with
  | nil => simp [read_config_paths, hpres]
  | cons q rest ih =>
      obtain ⟨a, b, rfl⟩ := hwf q (List.mem_cons_self q rest)
      have h1 : cfg.hasOption a b = false := habs a b (List.mem_cons_self _ _)
      have h2 := ih (fun q hq => hwf q (List.mem_cons_of_mem _ hq))
        (fun a b hab => habs a b (List.mem_cons_of_mem _ hab))
      simp [read_config_paths, h1, h2]

/-- Unfolding of `from_config` once the config scan found a value. -/
lemma from_config_found (o : MOption) (cfg : ConfigMap) (v s k : String)
    (hfound : read_config_paths o.config_paths cfg = Except.ok (some (v, s, k))) :
    o.from_config cfg = o.resolve_value v s k := by
  unfold MOption.from_config
  rw [hfound]

/-- A required option none of whose (two-element) config paths is
present resolves to the deferred missing-required marker. -/
lemma from_config_missing (o : MOption) (cfg : ConfigMap)
    (hreq : o.required = some true)
    (hwf : ∀ q ∈ o.config_paths, ∃ a b, q = [a, b])
    (habs : ∀ a b, [a, b] ∈ o.config_paths → cfg.hasOption a b = false) :
    o.from_config cfg = Except.ok (Resolved.missing o.config_paths) := by
  unfold MOption.from_config
  rw [read_config_paths_none o.config_paths cfg hwf habs]
  simp [MOption.required_truthy, hreq]

/-- With no coercion, decoding is stripping: each token maps to the raw
trimmed string. -/
lemma decode_all_id (o : MOption) (htype : o.type = none) (ts : List String) :
    o.decode_all ts = Except.ok (ts.map (fun t => Val.str (py_strip t))) := by
  induction ts with
  | nil => rfl
  | cons t ts ih => simp [MOption.decode_all, MOption.get_value, htype, ih]

/-- With no validator, the choices check always passes. -/
lemma check_all_no_choices (o : MOption) (hchoices : o.choices = none) (vs : List Val) :
    o.check_all vs = Except.ok () := by
  induction vs with
  | nil => rfl
  | cons v vs ih => simp [MOption.check_all, MOption.check_value, hchoices, ih]

/-- When the choices check passes, `check_then` returns the token
list. -/
lemma check_then_ok (o : MOption) (vs : List Val) (h : o.check_all vs = Except.ok ()) :
    o.check_then vs = Except.ok (Resolved.vals vs) := by
  unfold MOption.check_then
  rw [h]

/-- Successful decoding preserves the token count. -/
lemma decode_all_length (o : MOption) (ts : List String) (ws : List Val)
    (h : o.decode_all ts = Except.ok ws) : ws.length = ts.length := by
  induction ts generalizing ws with
  | nil => simp [MOption.decode_all] at h; simp [← h]
  | cons t ts ih =>
      simp only [MOption.decode_all] at h
      cases hg : o.get_value (py_strip t) with
      | error e => rw [hg] at h; exact absurd h (by simp)
      | ok v =>
          rw [hg] at h
          cases hd : o.decode_all ts with
          | error e => rw [hd] at h; exact absurd h (by simp)
          | ok vs =>
              rw [hd] at h
              simp at h
              subst h
              simp [ih vs hd]

/-- The only errors `_get_value` raises are the not-callable
`ConfigArgumentError` and the decode failure of the coercion itself. -/
lemma get_value_error_shape (o : MOption) (t : String) (e : Err)
    (h : o.get_value t = Except.error e) :
    (∃ m, e = Err.typeNotCallable m) ∨ (∃ m, e = Err.decodeFailure m) := by
  unfold MOption.get_value at h
  cases hty : o.type with
  | none => rw [hty] at h; exact absurd h (by simp)
  | some c =>
      rw [hty] at h
      cases c with
      | notCallable => left; exact ⟨_, by simp at h; exact h.symm⟩
      | toInt =>
          cases hi : py_int t with
          | some n => rw [hi] at h; exact absurd h (by simp)
          | none => rw [hi] at h; right; exact ⟨_, by simp at h; exact h.symm⟩

/-- Decoding a token list fails only with a decode-stage error. -/
lemma decode_all_error_shape (o : MOption) (ts : List String) (e : Err)
    (h : o.decode_all ts = Except.error e) :
    (∃ m, e = Err.typeNotCallable m) ∨ (∃ m, e = Err.decodeFailure m) := by
  induction ts with
  | nil => exact absurd h (by simp [MOption.decode_all])
  | cons t ts ih =>
      simp only [MOption.decode_all] at h
      cases hg : o.get_value (py_strip t) with
      | error e2 =>
          rw [hg] at h
          simp at h
          exact h ▸ get_value_error_shape o (py_strip t) e2 hg
      | ok v =>
          rw [hg] at h
          cases hd : o.decode_all ts with
          | error e2 =>
              rw [hd] at h
              simp at h
              subst h
              exact ih hd
          | ok vs => rw [hd] at h; exact absurd h (by simp)

/-- Python split never produces an empty token list. -/
lemma py_split_go_ne_nil (sep : List Char) (fuel : Nat) (cs : List Char) :
    py_split_go sep fuel cs ≠ [] := by
  match fuel, cs with
  | fuel, [] => simp [py_split_go]
  | 0, c :: cs => simp [py_split_go]
  | fuel + 1, c :: cs =>
      simp only [py_split_go]
      split
      · simp
      · split <;> simp

/-- Python split of any string yields at least one token. -/
lemma py_split_ne_nil (s sep : String) : py_split s sep ≠ [] := by
  unfold py_split
  intro h
  exact py_split_go_ne_nil sep.data s.data.length s.data (List.map_eq_nil_iff.mp h)

/-- Reflexivity of `Option.__eq__`. -/
lemma moption_eq_refl (o : MOption) : o.eq o = true := by
  simp [MOption.eq]

/-- The update function of `NSpace.set` does not change which entries
satisfy a lookup for a different key, nor the entries that do. -/
lemma nspace_set_pred_comp (k2 key : String) (v : Resolved) :
    ((fun e : String × Resolved => decide (e.1 = key)) ∘
      (fun e => if e.1 = k2 then (k2, v) else e)) =
      (fun e : String × Resolved =>
        if e.1 = k2 then decide (k2 = key) else decide (e.1 = key)) := by
  funext e
  by_cases he : e.1 = k2
  · simp [Function.comp, he]
  · simp [Function.comp, he]

/-- Overwriting an attribute makes it readable. -/
lemma nspace_get_set_self (ns : NSpace) (key : String) (v : Resolved) :
    (ns.set key v).get key = some v := by
  unfold NSpace.set NSpace.get
  split
  next h =>
    rw [List.find?_map, nspace_set_pred_comp key key v]
    have hsome : (ns.find? (fun e =>
        if e.1 = key then decide (key = key) else decide (e.1 = key))).isSome := by
      rw [List.find?_isSome]
      obtain ⟨x, hx, hpx⟩ := List.any_eq_true.mp h
      refine ⟨x, hx, ?_⟩
      have : x.1 = key := of_decide_eq_true hpx
      simp [this]
    obtain ⟨e, he⟩ := Option.isSome_iff_exists.mp hsome
    rw [he]
    have hpe := List.find?_some he
    have he1 : e.1 = key := by
      by_cases hc : e.1 = key
      · exact hc
      · rw [if_neg hc] at hpe; exact absurd (of_decide_eq_true hpe) hc
    simp [he1]
  next h =>
    rw [List.find?_append]
    have hnone : ns.find? (fun e => decide (e.1 = key)) = none := by
      rw [List.find?_eq_none]
      intro x hx hpx
      exact h (List.any_eq_true.mpr ⟨x, hx, hpx⟩)
    simp [hnone]

/-- Overwriting one attribute leaves the others unchanged. -/
lemma nspace_get_set_ne (ns : NSpace) (j key : String) (v : Resolved) (hne : j ≠ key) :
    (ns.set j v).get key = ns.get key := by
  unfold NSpace.set NSpace.get
  split
  next =>
    rw [List.find?_map, nspace_set_pred_comp j key v]
    have hp : (fun e : String × Resolved =>
        if e.1 = j then decide (j = key) else decide (e.1 = key)) =
        fun e : String × Resolved => decide (e.1 = key) := by
      funext e
      by_cases he : e.1 = j
      · simp [he, hne]
      · simp [he]
    rw [hp]
    cases hf : ns.find? (fun e => decide (e.1 = key)) with
    | none => simp
    | some e =>
        have he1 : e.1 = key := by
          have hpe := (List.find?_eq_some.mp hf).1
          exact of_decide_eq_true hpe
        have hid : (if e.1 = j then (j, v) else e) = e := by
          rw [if_neg (by rw [he1]; exact Ne.symm hne)]
        simp [hid]
  next =>
    rw [List.find?_append]
    have h2 : List.find? (fun e => decide (e.1 = key)) [(j, v)] = none := by
      simp [hne]
    rw [h2]
    cases ns.find? (fun e => decide (e.1 = key)) <;> rfl

/-- A fold of attribute writes whose keys avoid `key` leaves the lookup
of `key` unchanged. -/
lemma nspace_get_fold_not_mem (paths : List (List String)) (ns : NSpace) (fc : Resolved)
    (key : String) (hkey : key ∉ paths.map (String.intercalate "_")) :
    (paths.foldl (fun n path => n.set (String.intercalate "_" path) fc) ns).get key =
      ns.get key := by
  induction paths generalizing ns with
  | nil => rfl
  | cons p ps ih =>
      simp only [List.map_cons, List.mem_cons, not_or] at hkey
      simp only [List.foldl_cons]
      rw [ih (ns.set (String.intercalate "_" p) fc) hkey.2]
      exact nspace_get_set_ne ns _ key fc (fun h => hkey.1 h.symm)

/-- After folding writes of the same value over a key list, every
written key reads back that value. -/
lemma nspace_get_fold_mem (paths : List (List String)) (ns : NSpace) (fc : Resolved)
    (key : String) (hkey : key ∈ paths.map (String.intercalate "_")) :
    (paths.foldl (fun n path => n.set (String.intercalate "_" path) fc) ns).get key =
      some fc := by
  induction paths generalizing ns with
  | nil => simp at hkey
  | cons p ps ih =>
      simp only [List.foldl_cons]
      by_cases h : key ∈ ps.map (String.intercalate "_")
      · exact ih (ns.set (String.intercalate "_" p) fc) h
      · have hk : key = String.intercalate "_" p := by
          simp only [List.map_cons, List.mem_cons] at hkey
          exact hkey.resolve_right h
        rw [nspace_get_fold_not_mem ps _ fc key h, hk]
        exact nspace_get_set_self ns _ fc

/-- Effective entry of a concatenation: the later block wins. -/
lemma last_entry_append (a b : List ((String × String) × String)) (s k : String) :
    last_entry (a ++ b) s k =
      match last_entry b s k with
      | some v => some v
      | none => last_entry a s k := by
  unfold last_entry
  rw [List.reverse_append, List.find?_append]
  cases hb : b.reverse.find? (fun e => decide (e.1 = (s, k))) with
  | none => simp [hb, Option.or]
  | some w => simp [hb, Option.or]

/-- Lookup after `ConfigParser.read`: the last entry of the file for the
key wins; keys the file does not define keep their previous value. -/
lemma config_read_lookup (entries : List ((String × String) × String)) (cfg : ConfigMap)
    (s k : String) :
    (config_read cfg entries).lookup s k =
      match last_entry entries s k with
      | some v => some v
      | none => cfg.lookup s k := by
  induction entries generalizing cfg with
  | nil => rfl
  | cons e es ih =>
      show (config_read (e :: cfg) es).lookup s k = _
      rw [ih (e :: cfg)]
      have h1 : last_entry (e :: es) s k =
          match last_entry es s k with
          | some v => some v
          | none => last_entry [e] s k := by
        simpa using last_entry_append [e] es s k
      rw [h1]
      cases last_entry es s k with
      | some v => rfl
      | none =>
          by_cases he : e.1 = (s, k)
          · simp [ConfigMap.lookup, last_entry, he]
          · simp [ConfigMap.lookup, last_entry, he]

/-- Lookup after reading a sequence of files in order: the last file
defining the key wins; a key no file defines keeps its previous
value. -/
lemma fold_config_read_lookup (fs : List (List ((String × String) × String)))
    (cfg : ConfigMap) (s k : String) :
    (fs.foldl config_read cfg).lookup s k =
      match last_entry fs.flatten s k with
      | some v => some v
      | none => cfg.lookup s k := by
  induction fs generalizing cfg with
  | nil => rfl
  | cons f fs ih =>
      show ((fs.foldl config_read (config_read cfg f)).lookup s k) = _
      rw [ih (config_read cfg f), config_read_lookup f cfg s k]
      have hj : (f :: fs).flatten = f ++ fs.flatten := by simp
      rw [hj, last_entry_append f fs.flatten s k]
      cases last_entry fs.flatten s k with
      | some v => rfl
      | none =>
          cases last_entry f s k with
          | some w => rfl
          | none => rfl

/-- Writing a value into a namespace whose entries all hold that value
keeps every entry at that value. -/
lemma nspace_set_all_const (ns : NSpace) (k2 : String) (v : Resolved)
    (hall : ∀ e ∈ ns, e.2 = v) : ∀ e ∈ ns.set k2 v, e.2 = v := by
  intro e he
  unfold NSpace.set at he
  split at he
  · obtain ⟨x, hx, hfe⟩ := List.mem_map.mp he
    by_cases hx1 : x.1 = k2
    · rw [if_pos hx1] at hfe
      rw [← hfe]
    · rw [if_neg hx1] at hfe
      rw [← hfe]
      exact hall x hx
  · rcases List.mem_append.mp he with h | h
    · exact hall e h
    · simp at h
      rw [h]

/-- Folding writes of one value over any key list preserves the
all-entries-hold-that-value invariant. -/
lemma nspace_fold_set_all_const (paths : List (List String)) (ns : NSpace) (v : Resolved)
    (hall : ∀ e ∈ ns, e.2 = v) :
    ∀ e ∈ paths.foldl (fun n path => n.set (String.intercalate "_" path) v) ns, e.2 = v := by
  induction paths generalizing ns with
  | nil => exact hall
  | cons p ps ih => exact ih _ (nspace_set_all_const ns _ v hall)

/-- Writing an attribute never empties a namespace. -/
lemma nspace_set_ne_nil (ns : NSpace) (k2 : String) (v : Resolved) : ns.set k2 v ≠ [] := by
  unfold NSpace.set
  split
  next h =>
    cases ns with
    | nil => simp at h
    | cons e es => simp
  next => simp

/-- Folding attribute writes never empties a non-empty namespace. -/
lemma nspace_fold_set_ne_nil (paths : List (List String)) (ns : NSpace) (v : Resolved)
    (h : ns ≠ []) :
    paths.foldl (fun n path => n.set (String.intercalate "_" path) v) ns ≠ [] := by
  induction paths generalizing ns with
  | nil => exact h
  | cons p ps ih => exact ih _ (nspace_set_ne_nil ns _ v)

/-!
Claim theorems.
-/

/-- C6: `from_config` scans `config_paths` in declared order and
resolves from the first (section, key) pair present in the mapping,
ignoring later paths even if present (the result depends only on the
value stored at the first present pair); if no path is present and the
Option is not required, it returns the declared default. -/
theorem c6_first_present_path_wins (o : MOption) (cfg : ConfigMap)
    (ps1 ps2 : List (List String)) (s k : String)
    (hsplit : o.config_paths = ps1 ++ [s, k] :: ps2)
    (hwf : ∀ q ∈ ps1, ∃ a b, q = [a, b])
    (habs : ∀ a b, [a, b] ∈ ps1 → cfg.hasOption a b = false)
    (hpres : cfg.hasOption s k = true) :
    o.from_config cfg = o.resolve_value (cfg.get s k) s k
    ∧ ∀ (o2 : MOption) (cfg2 : ConfigMap),
        (∀ q ∈ o2.config_paths, ∃ a b, q = [a, b]) →
        (∀ a b, [a, b] ∈ o2.config_paths → cfg2.hasOption a b = false) →
        o2.required_truthy = false →
        o2.from_config cfg2 = Except.ok (Resolved.val o2.default) := by
  constructor
  · exact from_config_found o cfg (cfg.get s k) s k
      (by rw [hsplit]; exact read_config_paths_first ps1 ps2 s k cfg hwf habs hpres)
  · intro o2 cfg2 hwf2 habs2 hnreq
    unfold MOption.from_config
    rw [read_config_paths_none o2.config_paths cfg2 hwf2 habs2]
    simp [hnreq]

/-- C6 witness: an option with paths `db:host` then `fallback:host`
against a mapping where only the second is present resolves from
`fallback:host`. -/
theorem c6_first_present_path_wins_witness :
    optTwoPaths.from_config [(("fallback", "host"), "F")] =
      optTwoPaths.resolve_value "F" "fallback" "host" :=
  (c6_first_present_path_wins optTwoPaths [(("fallback", "host"), "F")]
    [["db", "host"]] [] "fallback" "host" rfl
    (by intro q hq; simp at hq; exact ⟨"db", "host", hq⟩)
    (by intro a b hab; simp at hab; rw [hab.1, hab.2]; rfl)
    rfl).1

/-- C5: with no coercion and no validator, a present config value
resolves to the raw string (scalar multiplicity) or to the
whitespace-trimmed split tokens (non-scalar multiplicity, provided the
fixed-count check is satisfiable). -/
theorem c5_no_coercion_identity (o : MOption) (cfg : ConfigMap) (v s k : String)
    (htype : o.type = none) (hchoices : o.choices = none)
    (hfound : read_config_paths o.config_paths cfg = Except.ok (some (v, s, k)))
    (hcnt : ∀ n, o.nargs = some (Nargs.count n) → (py_split v o.split_char).length = n) :
    (o.nargs = none → o.from_config cfg = Except.ok (Resolved.val (Val.str v)))
    ∧ ∀ ng, o.nargs = some ng →
        o.from_config cfg =
          Except.ok (Resolved.vals ((py_split v o.split_char).map (fun t => Val.str (py_strip t)))) := by
  have hff := from_config_found o cfg v s k hfound
  constructor
  · intro hn
    rw [hff]
    unfold MOption.resolve_value
    rw [hn]
    simp [MOption.get_value, htype, MOption.check_value, hchoices]
  · intro ng hng
    rw [hff]
    unfold MOption.resolve_value
    rw [hng]
    rw [decode_all_id o htype]
    have hchk := check_all_no_choices o hchoices
      ((py_split v o.split_char).map (fun t => Val.str (py_strip t)))
    cases ng with
    | plus =>
        have hlen : ¬((py_split v o.split_char).map (fun t => Val.str (py_strip t))).length = 0 := by
          simp only [List.length_map, List.length_eq_zero]
          exact py_split_ne_nil v o.split_char
        show (if ((py_split v o.split_char).map (fun t => Val.str (py_strip t))).length = 0
            then Except.error (Err.atLeastOne (plus_msg s k))
            else o.check_then ((py_split v o.split_char).map (fun t => Val.str (py_strip t)))) =
          Except.ok (Resolved.vals ((py_split v o.split_char).map (fun t => Val.str (py_strip t))))
        rw [if_neg hlen]
        exact check_then_ok o _ hchk
    | star => exact check_then_ok o _ hchk
    | count n =>
        have hlen : ((py_split v o.split_char).map (fun t => Val.str (py_strip t))).length = n := by
          simp only [List.length_map]
          exact hcnt n hng
        show (if ((py_split v o.split_char).map (fun t => Val.str (py_strip t))).length ≠ n
            then Except.error (Err.countMismatch (count_msg n s k))
            else o.check_then ((py_split v o.split_char).map (fun t => Val.str (py_strip t)))) =
          Except.ok (Resolved.vals ((py_split v o.split_char).map (fun t => Val.str (py_strip t))))
        rw [if_neg (not_not_intro hlen)]
        exact check_then_ok o _ hchk

/-- C5 witness: `Option("db:host", nargs="*")` with `[db] host =
"a.example, b.example"` resolves to the two trimmed raw strings. -/
theorem c5_no_coercion_identity_witness :
    optStar.from_config (cfgDb "a.example, b.example") =
      Except.ok (Resolved.vals [Val.str "a.example", Val.str "b.example"]) :=
  (((c5_no_coercion_identity optStar (cfgDb "a.example, b.example")
      "a.example, b.example" "db" "host" rfl rfl rfl
      (by intro n h; simp [optStar] at h)).2) Nargs.star rfl).trans (by rfl)

/-- C4: with a fixed token count N, a present config value splitting
into a different number of (decodable) tokens raises the count-mismatch
config error; a value splitting into exactly N tokens resolves to the
ordered list of the N decoded tokens. -/
theorem c4_fixed_count_mismatch (o : MOption) (cfg : ConfigMap) (n : Nat)
    (v s k : String) (ws : List Val)
    (hn : o.nargs = some (Nargs.count n))
    (hfound : read_config_paths o.config_paths cfg = Except.ok (some (v, s, k)))
    (hdec : o.decode_all (py_split v o.split_char) = Except.ok ws)
    (hchk : o.check_all ws = Except.ok ()) :
    ((py_split v o.split_char).length ≠ n →
      o.from_config cfg = Except.error (Err.countMismatch (count_msg n s k)))
    ∧ ((py_split v o.split_char).length = n →
      o.from_config cfg = Except.ok (Resolved.vals ws) ∧ ws.length = n) := by
  have hff := from_config_found o cfg v s k hfound
  have hlen := decode_all_length o (py_split v o.split_char) ws hdec
  constructor
  · intro hne
    rw [hff]
    unfold MOption.resolve_value
    rw [hn, hdec]
    have hwne : ws.length ≠ n := by rw [hlen]; exact hne
    simp [hwne]
  · intro heq
    have hweq : ws.length = n := by rw [hlen]; exact heq
    refine ⟨?_, hweq⟩
    rw [hff]
    unfold MOption.resolve_value
    rw [hn, hdec]
    simp [hweq, MOption.check_then, hchk]

/-- C4 witness: `Option("db:host", nargs=2)` with `[db] host = "a,b,c"`
raises the count-mismatch error. -/
theorem c4_fixed_count_mismatch_witness :
    optCnt2.from_config (cfgDb "a,b,c") =
      Except.error (Err.countMismatch (count_msg 2 "db" "host")) :=
  (c4_fixed_count_mismatch optCnt2 (cfgDb "a,b,c") 2 "a,b,c" "db" "host"
    [Val.str "a", Val.str "b", Val.str "c"] rfl rfl rfl rfl).1 (by decide)

/-- C10: for a fixed-count option with a present config value of the
wrong token count, the whole token list is decoded before the count
check, and the choices check never runs: the raised error is the
count-mismatch error or a decode-stage error, never the invalid-choice
error; when every token decodes, it is exactly the count-mismatch
error. -/
theorem c10_decode_before_count_before_choices (o : MOption) (cfg : ConfigMap)
    (n : Nat) (v s k : String)
    (hn : o.nargs = some (Nargs.count n))
    (hfound : read_config_paths o.config_paths cfg = Except.ok (some (v, s, k)))
    (hbad : (py_split v o.split_char).length ≠ n) :
    ∃ e, o.from_config cfg = Except.error e
      ∧ ((∃ m, e = Err.countMismatch m) ∨ (∃ m, e = Err.decodeFailure m)
          ∨ (∃ m, e = Err.typeNotCallable m))
      ∧ (∀ m, e ≠ Err.invalidChoice m)
      ∧ (∀ ws, o.decode_all (py_split v o.split_char) = Except.ok ws →
          e = Err.countMismatch (count_msg n s k)) := by
  have hff := from_config_found o cfg v s k hfound
  cases hd : o.decode_all (py_split v o.split_char) with
  | error e =>
      refine ⟨e, ?_, ?_, ?_, ?_⟩
      · rw [hff]
        unfold MOption.resolve_value
        rw [hn, hd]
      · rcases decode_all_error_shape o (py_split v o.split_char) e hd with ⟨m, rfl⟩ | ⟨m, rfl⟩
        · exact Or.inr (Or.inr ⟨m, rfl⟩)
        · exact Or.inr (Or.inl ⟨m, rfl⟩)
      · rcases decode_all_error_shape o (py_split v o.split_char) e hd with ⟨m, rfl⟩ | ⟨m, rfl⟩ <;> simp
      · intro ws hws
        exact absurd hws (by simp)
  | ok ws =>
      have hwne : ws.length ≠ n := by
        rw [decode_all_length o (py_split v o.split_char) ws hd]
        exact hbad
      refine ⟨Err.countMismatch (count_msg n s k), ?_, Or.inl ⟨_, rfl⟩, by simp, fun _ _ => rfl⟩
      rw [hff]
      unfold MOption.resolve_value
      rw [hn, hd]
      simp [hwne]

/-- C10 witness: `Option("db:host", nargs=2, type=int, choices=[1])`
with `[db] host = "1,2,3"`: tokens 2 and 3 are outside the allowed set,
yet the error is the count mismatch. -/
theorem c10_decode_before_count_before_choices_witness :
    optCnt2Int.from_config (cfgDb "1,2,3") =
      Except.error (Err.countMismatch (count_msg 2 "db" "host")) := by
  obtain ⟨e, h1, _, _, h4⟩ :=
    c10_decode_before_count_before_choices optCnt2Int (cfgDb "1,2,3") 2 "1,2,3" "db" "host"
      rfl rfl (by decide)
  rw [h4 [Val.int 1, Val.int 2, Val.int 3] rfl] at h1
  exact h1

/-- C7: two Options built from identical name lists and keyword bundles
compare equal; `Option.__eq__` holds iff every declared field compares
equal; `extend_options` skips an Option already declared under
equality; and `append_option` is idempotent. -/
theorem c7_option_equality_and_dedup :
    (∀ (names : List String) (kw : OptionKwargs),
        (MOption.build names kw).eq (MOption.build names kw) = true)
    ∧ (∀ a b : MOption, a.eq b = true ↔
        (b.action = a.action ∧ b.nargs = a.nargs ∧ b.const = a.const ∧ b.default = a.default ∧
         b.type = a.type ∧ b.choices = a.choices ∧ b.required = a.required ∧ b.help = a.help ∧
         b.metavar = a.metavar ∧ b.dest = a.dest ∧ b.split_char = a.split_char ∧
         b.config_paths = a.config_paths ∧ b.args = a.args ∧ b.options = a.options))
    ∧ (∀ (opts : List MOption) (o : MOption), opt_mem o opts = true →
        extend_options opts [o] = opts)
    ∧ (∀ (opts : List MOption) (o : MOption),
        append_option (append_option opts o) o = append_option opts o) := by
  refine ⟨fun names kw => moption_eq_refl _, ?_, ?_, ?_⟩
  · intro a b
    simp [MOption.eq, Bool.and_eq_true, decide_eq_true_eq, and_assoc]
  · intro opts o h
    simp [extend_options, append_option, h]
  · intro opts o
    by_cases h : opt_mem o opts = true
    · simp [append_option, h]
    · have h2 : opt_mem o (opts ++ [o]) = true := by
        simp [opt_mem, List.any_append, List.any_cons, moption_eq_refl]
      simp [append_option, h, h2]

/-- C7 witness: a concrete rebuilt Option equals itself and a duplicate
extend is a no-op. -/
theorem c7_option_equality_and_dedup_witness :
    (MOption.build ["db:host", "--host"] kwNone).eq (MOption.build ["db:host", "--host"] kwNone)
      = true
    ∧ extend_options [optReq] [optReq] = [optReq] :=
  ⟨c7_option_equality_and_dedup.1 ["db:host", "--host"] kwNone,
   c7_option_equality_and_dedup.2.2.1 [optReq] optReq (by rfl)⟩

/-- C8: an Option with neither positional nor flag names writes the
resolved config value into the output namespace under each config path
joined with underscores and registers nothing on the flag parser. -/
theorem c8_config_only_frame (o : MOption) (fc : Resolved)
    (argparser : List ArgAction) (ns : NSpace)
    (hargs : o.args = []) (hopts : o.options = []) :
    (o.addToParser fc argparser (some ns)).1 = argparser
    ∧ ∃ ns2, (o.addToParser fc argparser (some ns)).2 = some ns2
        ∧ ∀ path ∈ o.config_paths, ns2.get (String.intercalate "_" path) = some fc := by
  unfold MOption.addToParser
  rw [if_pos ⟨hargs, hopts⟩]
  refine ⟨rfl, _, rfl, ?_⟩
  intro path hpath
  exact nspace_get_fold_mem o.config_paths ns fc _ (List.mem_map_of_mem _ hpath)

/-- C8 witness: the config-only option writes `db_host` and leaves the
parser empty. -/
theorem c8_config_only_frame_witness :
    (optCfgOnly.addToParser (Resolved.val (Val.str "V")) [] (some [])).1 = ([] : List ArgAction)
    ∧ NSpace.get ((optCfgOnly.addToParser (Resolved.val (Val.str "V")) [] (some [])).2.getD [])
        "db_host" = some (Resolved.val (Val.str "V")) := by
  obtain ⟨h1, ns2, h2, h3⟩ :=
    c8_config_only_frame optCfgOnly (Resolved.val (Val.str "V")) [] [] rfl rfl
  refine ⟨h1, ?_⟩
  rw [h2]
  exact h3 ["db", "host"] (by rw [show optCfgOnly.config_paths = [["db", "host"]] from rfl]; simp)

/-- Bootstrap parse of an empty command line: the config flag keeps its
declared default. -/
lemma parse_known_bootstrap_empty (p : ConfigBackedArgumentParser) (pp : String)
    (hdef : p.def_cfg_loc = some pp) :
    parse_known [p.config_action] [] [] =
      Except.ok ([("config", Resolved.val (Val.str pp))], []) := by
  unfold parse_known
  show (match Except.ok (seed_defaults [p.config_action] [], ([] : List String),
      ([] : List String)) with
    | Except.error e => Except.error (ε := Err) e
    | Except.ok (ns, rest, seen) =>
        match [p.config_action].find?
            (fun a : ArgAction => decide (a.required = some true) && !(seen.contains a.destOf)) with
        | some a => Except.error (Err.usage ("argument " ++ String.intercalate "/" a.names ++
            " is required"))
        | none => Except.ok (ns, rest)) = _
  have hseed : seed_defaults [p.config_action] [] = [("config", Resolved.val (Val.str pp))] := by
    unfold seed_defaults ConfigBackedArgumentParser.config_action ArgAction.destOf
    simp [hdef]
  rw [hseed]
  rfl

/-- C9 counterexample: with primary config `a.cfg` holding `[db] host =
p` and extras `b.cfg`, `c.cfg` holding `x1`, `x2`, the merged mapping
holds `x2` (the last extra read), not the value `p` of the primary. -/
theorem c9_counterexample_extra_overrides_primary :
    (parserMerge.merged_config filesMerge []).map (fun M => M.lookup "db" "host") =
      Except.ok (some "x2")
    ∧ ConfigMap.lookup (config_read [] (filesMerge "a.cfg")) "db" "host" = some "p" :=
  ⟨rfl, rfl⟩

/-- C9 amended: the merged mapping is built by reading the primary
config file first and the extra configs after it in registration order,
with last-read-wins per key: a lookup returns the last entry for that
key in the concatenation primary-then-extras, so extra configs override
the primary and later extras override earlier ones. -/
theorem c9_amended_merge_last_read_wins (p : ConfigBackedArgumentParser) (files : Files)
    (pp s k : String) (hdef : p.def_cfg_loc = some pp) :
    ∃ M, p.merged_config files [] = Except.ok M
      ∧ M.lookup s k =
          last_entry (files pp ++ (p.additional_configs.map files).flatten) s k := by
  unfold ConfigBackedArgumentParser.merged_config
  rw [parse_known_bootstrap_empty p pp hdef]
  refine ⟨_, rfl, ?_⟩
  show (p.additional_configs.foldl (fun c pth => config_read c (files pth))
      (config_read [] (files pp))).lookup s k = _
  rw [← List.foldl_map files config_read p.additional_configs]
  rw [fold_config_read_lookup, config_read_lookup]
  rw [last_entry_append (files pp) ((p.additional_configs.map files).flatten) s k]
  cases last_entry ((p.additional_configs.map files).flatten) s k with
  | some v => rfl
  | none =>
      cases last_entry (files pp) s k with
      | some w => rfl
      | none => rfl

/-- C9 amended witness: the concrete three-file instance. -/
theorem c9_amended_merge_last_read_wins_witness :
    (parserMerge.merged_config filesMerge []).map (fun M => M.lookup "db" "host") =
      Except.ok (last_entry (filesMerge "a.cfg" ++ (["b.cfg", "c.cfg"].map filesMerge).flatten)
        "db" "host") := by
  obtain ⟨M, h1, h2⟩ :=
    c9_amended_merge_last_read_wins parserMerge filesMerge "a.cfg" "db" "host" rfl
  rw [h1]
  show Except.ok (M.lookup "db" "host") = _
  rw [h2]
  rfl

/-- C2: a required option with no present config path resolves to the
deferred missing-required marker (returned, not raised) carrying its
config paths; and a full resolution call in which that marker survives
to the final namespace (a config-only option, no command-line value)
raises exactly the missing-required error naming those config paths at
the reconciliation scan. -/
theorem c2_missing_required_deferred_then_raised (p : ConfigBackedArgumentParser)
    (o : MOption) (files : Files) (M : ConfigMap)
    (hopt : p.options = [o])
    (hreq : o.required = some true)
    (hwf : ∀ q ∈ o.config_paths, ∃ a b, q = [a, b])
    (habs : ∀ a b, [a, b] ∈ o.config_paths → M.hasOption a b = false)
    (hargs : o.args = []) (hflags : o.options = [])
    (hne : o.config_paths ≠ [])
    (hmerged : p.merged_config files [] = Except.ok M) :
    o.from_config M = Except.ok (Resolved.missing o.config_paths)
    ∧ p.parse_args files [] = Except.error (Err.missingConfig (missing_message o.config_paths))
    ∧ p.parse_known_args files [] =
        Except.error (Err.missingConfig (missing_message o.config_paths))
    ∧ p.bootstrap_parse files [] =
        Except.error (Err.missingConfig (missing_message o.config_paths)) := by
  have hfc : o.from_config M = Except.ok (Resolved.missing o.config_paths) :=
    from_config_missing o M hreq hwf habs
  have hsetup : p.setupParser files [] = Except.ok ([p.config_action],
      o.config_paths.foldl (fun n path => NSpace.set n (String.intercalate "_" path)
        (Resolved.missing o.config_paths)) ([] : NSpace)) := by
    unfold ConfigBackedArgumentParser.setupParser ConfigBackedArgumentParser.readConfigArgs
    rw [hmerged, hopt]
    simp [ConfigBackedArgumentParser.read_config_vals, hfc, MOption.addToParser, hargs, hflags]
  set ns0 := o.config_paths.foldl (fun n path => NSpace.set n (String.intercalate "_" path)
    (Resolved.missing o.config_paths)) ([] : NSpace) with hns0
  have hall : ∀ e ∈ ns0, e.2 = Resolved.missing o.config_paths :=
    nspace_fold_set_all_const o.config_paths [] _ (by intro e he; simp at he)
  have hnn : ns0 ≠ [] := by
    rw [hns0]
    cases hcp : o.config_paths with
    | nil => exact absurd hcp hne
    | cons q qs =>
        simp only [List.foldl_cons]
        exact nspace_fold_set_ne_nil qs _ _ (nspace_set_ne_nil [] _ _)
  obtain ⟨e, tail, hsplit⟩ : ∃ e tail, ns0 = e :: tail := by
    cases hh : ns0 with
    | nil => exact absurd hh hnn
    | cons a b => exact ⟨a, b, rfl⟩
  have hev : e.2 = Resolved.missing o.config_paths :=
    hall e (hsplit ▸ List.mem_cons_self e tail)
  have hpk : parse_known [p.config_action] [] ns0 =
      Except.ok (seed_defaults [p.config_action] ns0, []) := rfl
  obtain ⟨X, hseedX⟩ : ∃ X, seed_defaults [p.config_action] ns0 = e :: X := by
    rw [hsplit]
    unfold seed_defaults
    simp only [List.foldl_cons, List.foldl_nil]
    split
    · exact ⟨tail, rfl⟩
    · exact ⟨tail ++ [((p.config_action).destOf,
        (p.config_action).default.getD (Resolved.val Val.pynone))], rfl⟩
  have hcheck : ConfigBackedArgumentParser.check_required_config (e :: X) =
      Except.error (Err.missingConfig (missing_message o.config_paths)) := by
    obtain ⟨k1, v1⟩ := e
    have hv : v1 = Resolved.missing o.config_paths := hev
    rw [hv]
    rfl
  have hpka : p.parse_known_args files [] =
      Except.error (Err.missingConfig (missing_message o.config_paths)) := by
    unfold ConfigBackedArgumentParser.parse_known_args
    rw [hsetup]
    simp only [hpk, hseedX, hcheck]
  have hpa : p.parse_args files [] =
      Except.error (Err.missingConfig (missing_message o.config_paths)) := by
    unfold ConfigBackedArgumentParser.parse_args
    rw [hsetup]
    simp only [hpk, hseedX, hcheck]
    simp
  have hbp : p.bootstrap_parse files [] =
      Except.error (Err.missingConfig (missing_message o.config_paths)) := by
    unfold ConfigBackedArgumentParser.bootstrap_parse
    rw [hpka]
  exact ⟨hfc, hpa, hpka, hbp⟩

/-- C1: for a required option whose config paths are all absent from
the merged mapping, a value supplied on the command line for one of its
flag names overwrites the deferred missing-required marker that was
seeded as the flag default, so `parse_args`, `parse_known_args` and
`bootstrap_parse` all succeed and the namespace holds the flag-supplied
value. -/
theorem c1_flag_value_overrides_missing_required (p : ConfigBackedArgumentParser)
    (o : MOption) (files : Files) (M : ConfigMap) (f w : String)
    (hopt : p.options = [o])
    (hreq : o.required = some true)
    (hwf : ∀ q ∈ o.config_paths, ∃ a b, q = [a, b])
    (habs : ∀ a b, [a, b] ∈ o.config_paths → M.hasOption a b = false)
    (hmerged : p.merged_config files [f, w] = Except.ok M)
    (hargs : o.args = [])
    (hmem : f ∈ o.options)
    (hstart : py_startswith f "-" = true)
    (hf1 : f ≠ p.config_short_flag) (hf2 : f ≠ p.config_long_flag)
    (_hwdash : py_startswith w "-" = false)
    (hnargs : o.nargs = none) (htype : o.type = none)
    (_haction : o.action = "store")
    (hdest : (o.argAction (Resolved.missing o.config_paths)).destOf ≠ "config") :
    p.parse_args files [f, w] = Except.ok
      [("config", p.cfg_default),
       ((o.argAction (Resolved.missing o.config_paths)).destOf, Resolved.val (Val.str w))]
    ∧ p.parse_known_args files [f, w] = Except.ok
        ([("config", p.cfg_default),
          ((o.argAction (Resolved.missing o.config_paths)).destOf, Resolved.val (Val.str w))], [])
    ∧ p.bootstrap_parse files [f, w] = Except.ok
        [("config", p.cfg_default),
         ((o.argAction (Resolved.missing o.config_paths)).destOf, Resolved.val (Val.str w))] := by
  have hfc : o.from_config M = Except.ok (Resolved.missing o.config_paths) :=
    from_config_missing o M hreq hwf habs
  have hone : o.options ≠ [] := by
    intro hh
    rw [hh] at hmem
    exact absurd hmem (List.not_mem_nil f)
  set A := o.argAction (Resolved.missing o.config_paths) with hA
  set D := A.destOf with hD
  have hsetup : p.setupParser files [f, w] = Except.ok ([p.config_action, A], []) := by
    unfold ConfigBackedArgumentParser.setupParser ConfigBackedArgumentParser.readConfigArgs
    rw [hmerged, hopt]
    have hcond : ¬(o.args = [] ∧ o.options = []) := fun hh => hone hh.2
    simp [ConfigBackedArgumentParser.read_config_vals, hfc, MOption.addToParser, hcond]
  have hcd : ("config" : String) ≠ D := fun h => hdest h.symm
  have hcad : (p.config_action).destOf = "config" := rfl
  have hcadef : (p.config_action).default = some p.cfg_default := rfl
  have hAdef : A.default = some (Resolved.missing o.config_paths) := by
    rw [hA]
    simp [MOption.argAction]
  have hseed : seed_defaults [p.config_action, A] [] =
      [("config", p.cfg_default), (D, Resolved.missing o.config_paths)] := by
    unfold seed_defaults
    simp only [List.foldl_cons, List.foldl_nil]
    simp [hcad, hcadef, hAdef, hcd]
  have hAnames : A.names = o.options := by
    rw [hA]
    simp [MOption.argAction, hargs]
  have hAnargs : A.nargs = none := hnargs
  have hAtype : A.type = none := htype
  have hb1 : (f == p.config_short_flag) = false := beq_eq_false_iff_ne.mpr hf1
  have hb2 : (f == p.config_long_flag) = false := beq_eq_false_iff_ne.mpr hf2
  have hpredca : (py_startswith f "-" && (p.config_action).names.contains f) = false := by
    have hn : (p.config_action).names = [p.config_short_flag, p.config_long_flag] := rfl
    simp [hn, List.contains, List.elem, hb1, hb2]
  have hpredA : (py_startswith f "-" && A.names.contains f) = true := by
    rw [hAnames, hstart]
    simp [List.contains]
    exact hmem
  have hfind : [p.config_action, A].find?
      (fun a => py_startswith f "-" && a.names.contains f) = some A := by
    simp only [List.find?]
    rw [hpredca, hpredA]
  have hset : NSpace.set [("config", p.cfg_default), (D, Resolved.missing o.config_paths)] D
      (Resolved.val (Val.str w)) =
      [("config", p.cfg_default), (D, Resolved.val (Val.str w))] := by
    unfold NSpace.set
    rw [if_pos (by simp [List.any_cons, hcd])]
    simp [hcd]
  have happly : A.applyType w = Except.ok (Val.str w) := by
    unfold ArgAction.applyType
    rw [hAtype]
  have hconsume : consume [p.config_action, A] 2 [f, w]
      [("config", p.cfg_default), (D, Resolved.missing o.config_paths)] [] [] =
      Except.ok ([("config", p.cfg_default), (D, Resolved.val (Val.str w))], [], [D]) := by
    simp only [consume, hfind, hAnargs, happly, hset]
    rw [List.nil_append, ← hD]
  have hreqchk : [p.config_action, A].find?
      (fun a => decide (a.required = some true) && !(List.contains [D] a.destOf)) = none := by
    rw [List.find?_eq_none]
    intro x hx hpx
    rcases List.mem_cons.mp hx with hx1 | hx2
    · subst hx1
      rw [show (p.config_action).required = none from rfl] at hpx
      simp at hpx
    · have hxA : x = A := by simpa using hx2
      subst hxA
      rw [show A.required = some true from hreq] at hpx
      rw [← hD] at hpx
      simp [List.contains, List.elem] at hpx
  have hpk : parse_known [p.config_action, A] [f, w] [] =
      Except.ok ([("config", p.cfg_default), (D, Resolved.val (Val.str w))], []) := by
    unfold parse_known
    rw [show (([f, w] : List String)).length = 2 from rfl, hseed, hconsume]
    simp only [hreqchk]
  have hchk : ConfigBackedArgumentParser.check_required_config
      [("config", p.cfg_default), (D, Resolved.val (Val.str w))] = Except.ok () := by
    unfold ConfigBackedArgumentParser.cfg_default
    cases p.def_cfg_loc <;> rfl
  have hpka : p.parse_known_args files [f, w] = Except.ok
      ([("config", p.cfg_default), (D, Resolved.val (Val.str w))], []) := by
    unfold ConfigBackedArgumentParser.parse_known_args
    rw [hsetup]
    simp only [hpk, hchk]
  have hpa : p.parse_args files [f, w] = Except.ok
      [("config", p.cfg_default), (D, Resolved.val (Val.str w))] := by
    unfold ConfigBackedArgumentParser.parse_args
    rw [hsetup]
    simp only [hpk, hchk]
    simp
  have hbp : p.bootstrap_parse files [f, w] = Except.ok
      [("config", p.cfg_default), (D, Resolved.val (Val.str w))] := by
    unfold ConfigBackedArgumentParser.bootstrap_parse
    rw [hpka]
  exact ⟨hpa, hpka, hbp⟩

/-- C1 witness: `Option("db:host", "--host", required=True)` with no
config file and `--host x` on the command line resolves to `x`. -/
theorem c1_flag_value_overrides_missing_required_witness :
    parserReq.parse_args noFiles ["--host", "x"] = Except.ok
      [("config", parserReq.cfg_default),
       ((optReq.argAction (Resolved.missing optReq.config_paths)).destOf,
        Resolved.val (Val.str "x"))] :=
  (c1_flag_value_overrides_missing_required parserReq optReq noFiles [] "--host" "x"
    rfl rfl
    (by intro q hq; rw [show optReq.config_paths = [["db", "host"]] from rfl] at hq;
        simp at hq; exact ⟨"db", "host", hq⟩)
    (fun a b _ => rfl) rfl rfl
    (by rw [show optReq.options = ["--host"] from rfl]; simp)
    rfl (by decide) (by decide) rfl rfl rfl rfl (by decide)).1

/-- C2 witness: the concrete config-only required option with no config
file and an empty command line. -/
theorem c2_missing_required_deferred_then_raised_witness :
    parserCfgOnly.parse_args noFiles [] =
      Except.error (Err.missingConfig (missing_message [["db", "host"]])) := by
  have h := c2_missing_required_deferred_then_raised parserCfgOnly optCfgOnly noFiles []
    rfl rfl
    (by intro q hq; rw [show optCfgOnly.config_paths = [["db", "host"]] from rfl] at hq;
        simp at hq; exact ⟨"db", "host", hq⟩)
    (fun a b _ => rfl) rfl rfl (by decide) rfl
  exact h.2.1

/-- C3 counterexample: `Option("db:host", nargs="+")` with the empty
string at its config path does not raise; Python `"".split(",")` is
`[""]`, one token, so `from_config` returns the singleton list of the
empty string. -/
theorem c3_counterexample_plus_empty_string :
    optPlus.from_config (cfgDb "") = Except.ok (Resolved.vals [Val.str ""]) := rfl

/-- C3 amended: for an option with `nargs="+"` (no coercion, no
validator) whose first present config path holds the empty string,
`from_config` returns successfully with the single-element list
containing the empty string: splitting on a string delimiter always
yields at least one token, so the at-least-one-value error cannot
fire. -/
theorem c3_amended_plus_empty_string_single_token (o : MOption) (cfg : ConfigMap)
    (s k : String)
    (hplus : o.nargs = some Nargs.plus)
    (htype : o.type = none) (hchoices : o.choices = none)
    (hfound : read_config_paths o.config_paths cfg = Except.ok (some ("", s, k))) :
    o.from_config cfg = Except.ok (Resolved.vals [Val.str ""]) := by
  rw [from_config_found o cfg "" s k hfound]
  unfold MOption.resolve_value
  rw [hplus]
  have hsp : py_split "" o.split_char = [""] := rfl
  rw [hsp, decode_all_id o htype]
  have hone : ([""].map (fun t => Val.str (py_strip t))) = [Val.str ""] := rfl
  rw [hone]
  simp [check_then_ok o [Val.str ""] (check_all_no_choices o hchoices [Val.str ""])]

/-- C3 amended witness: the concrete empty-string instance. -/
theorem c3_amended_plus_empty_string_witness :
    optPlus.from_config (cfgDb "") = Except.ok (Resolved.vals [Val.str ""]) :=
  c3_amended_plus_empty_string_single_token optPlus (cfgDb "") "db" "host" rfl rfl rfl rfl

end Metargs
